import Mathlib

/-!
Verification development for the PubMed MCP server middleware
(src/functions/_middleware.ts).

The TypeScript source is shallowly embedded as executable Lean
definitions:

* JavaScript strings are Lean `String`; truthiness of a possibly
  absent string (`string | null | undefined`) is modelled on
  `Option String` (`none` = null/undefined, `some ""` is falsy).
* The DOM produced by `DOMParser.parseFromString` is modelled by the
  tree type `XElem`; the parser itself is an external collaborator and
  is passed in as an oracle `String → Option XElem`, where `none`
  models a parse failure that would be caught by the surrounding
  try/catch.  `querySelector`/`querySelectorAll` are modelled by
  document-order traversals (`docAll`, `elemAll`, `docAllUnder`,
  `elemAllUnder`), where `textContent` is the stored `text` field.
* JavaScript numbers holding integer values are Lean `Int`; `parseInt`
  may also produce NaN, modelled by `JSNum`.
* The network (`fetch`) is an oracle `Nat → Except String HttpResponse`
  giving the outcome of each attempt (`Except.error` = a rejected
  promise: network error or timeout).  The cache is an oracle
  `String → Option Payload`.  Raised exceptions are modelled with
  `Except`; the catch blocks of the source become `match`es on the
  error case.
-/

/-! ## JavaScript string semantics helpers -/

/-- Lexicographic comparison of char lists by code point, the order
used by the default JavaScript `Array.prototype.sort()` comparator on
the (BMP) strings occurring as parameter names. -/
def charsLe : List Char → List Char → Bool
  | [], _ => true
  | _ :: _, [] => false
  | a :: as, b :: bs =>
    if a.toNat < b.toNat then true
    else if b.toNat < a.toNat then false
    else charsLe as bs

def strLeb (a b : String) : Bool := charsLe a.data b.data

/-- The sort relation for parameter keys, as a decidable Prop. -/
def strRel (a b : String) : Prop := strLeb a b = true

instance : DecidableRel strRel := fun a b => instDecidableEqBool (strLeb a b) true

/-- Truthiness of a JavaScript `string | null | undefined` value:
null, undefined and the empty string are falsy. -/
def jsTruthy (o : Option String) : Bool := o.getD "" != ""

/-- Model of `String.prototype.toLowerCase` for the ASCII content-type
strings this code inspects. -/
def lowerStr (s : String) : String := String.mk (s.data.map Char.toLower)

def charsHasPre : List Char → List Char → Bool
  | [], _ => true
  | _ :: _, [] => false
  | a :: as, b :: bs => a == b && charsHasPre as bs

def charsHasSub (p : List Char) : List Char → Bool
  | [] => p.isEmpty
  | c :: t => charsHasPre p (c :: t) || charsHasSub p t

/-- Model of `String.prototype.includes`. -/
def jsIncludes (s pat : String) : Bool := charsHasSub pat.data s.data

/-- A JavaScript number that is either an integer or NaN (the possible
results of `parseInt` with radix 10). -/
inductive JSNum where
  | int (n : Int)
  | nan
deriving DecidableEq

def jsWhitespace (c : Char) : Bool := c == ' ' || c == '\t' || c == '\n' || c == '\r'

def digitsVal (cs : List Char) : Nat := cs.foldl (fun acc c => acc * 10 + (c.toNat - 48)) 0

def parseDigits (cs : List Char) (sign : Int) : JSNum :=
  let ds := cs.takeWhile Char.isDigit
  if ds.isEmpty then JSNum.nan else JSNum.int (sign * (digitsVal ds : Int))

/-- Model of `parseInt(s, 10)`: skip leading whitespace, optional
sign, then the longest digit run; no digits gives NaN. -/
def jsParseInt (s : String) : JSNum :=
  match s.data.dropWhile jsWhitespace with
  | '-' :: r => parseDigits r (-1)
  | '+' :: r => parseDigits r 1
  | r => parseDigits r 1

/-- Model of `Array.prototype.slice(0, stop)` on string arrays: a
negative stop counts from the end, a stop past the end is clamped. -/
def jsSliceTo (l : List String) (stop : Int) : List String :=
  if stop < 0 then l.take (((l.length : Int) + stop).toNat) else l.take stop.toNat

/-! ## XML document model -/

/-- An XML element: tag name, attributes, its `textContent`, and child
elements in document order. -/
inductive XElem where
  | mk (name : String) (attrs : List (String × String)) (text : String) (children : List XElem)

def XElem.name : XElem → String
  | .mk n _ _ _ => n

def XElem.attrs : XElem → List (String × String)
  | .mk _ a _ _ => a

def XElem.text : XElem → String
  | .mk _ _ t _ => t

def XElem.children : XElem → List XElem
  | .mk _ _ _ c => c

mutual

/-- All elements of the tree rooted at `e`, in document (pre-)order,
root included. -/
def XElem.preorder : XElem → List XElem
  | .mk n a t ch => .mk n a t ch :: preorderList ch

def preorderList : List XElem → List XElem
  | [] => []
  | e :: es => XElem.preorder e ++ preorderList es

end

mutual

/-- Elements named `tag` that have a strict ancestor named `anc`
(`seen` records whether such an ancestor is already above us), in
document order.  This models the CSS descendant combinator
`"anc tag"`. -/
def collectAnc (anc tag : String) : Bool → XElem → List XElem
  | seen, .mk n a t ch =>
    (if n == tag && seen then [XElem.mk n a t ch] else []) ++
      collectAncList anc tag (seen || n == anc) ch

def collectAncList (anc tag : String) : Bool → List XElem → List XElem
  | _, [] => []
  | seen, e :: es => collectAnc anc tag seen e ++ collectAncList anc tag seen es

end

/-- Model of `doc.querySelectorAll(tag)`: every element of the
document (the root included) named `tag`, in document order. -/
def docAll (root : XElem) (tag : String) : List XElem :=
  root.preorder.filter (fun e => e.name == tag)

/-- Model of `doc.querySelector(tag)`. -/
def docFirst (root : XElem) (tag : String) : Option XElem :=
  (docAll root tag).head?

/-- Model of `elem.querySelectorAll(tag)`: proper descendants only. -/
def elemAll (e : XElem) (tag : String) : List XElem :=
  (preorderList e.children).filter (fun x => x.name == tag)

/-- Model of `elem.querySelector(tag)`. -/
def elemFirst (e : XElem) (tag : String) : Option XElem :=
  (elemAll e tag).head?

/-- Model of `doc.querySelectorAll("anc tag")` (descendant
combinator). -/
def docAllUnder (root : XElem) (anc tag : String) : List XElem :=
  collectAnc anc tag false root

/-- Model of `elem.querySelectorAll("anc tag")`: matches proper
descendants of `elem` named `tag` having an ancestor named `anc`
(possibly `elem` itself). -/
def elemAllUnder (e : XElem) (anc tag : String) : List XElem :=
  collectAncList anc tag (e.name == anc) e.children

/-- Model of `elem.querySelector("anc tag")`. -/
def elemFirstUnder (e : XElem) (anc tag : String) : Option XElem :=
  (elemAllUnder e anc tag).head?

/-! ## Domain record types (TYPES & INTERFACES section of the source) -/

structure SearchResult where
  count : JSNum
  pmids : List String
  query_translation : String
deriving DecidableEq

structure Article where
  pmid : String
  title : String
  authors : List String
  journal : String
  pub_date : String
  abstract : String
  doi : String
deriving DecidableEq

def emptySearchResult : SearchResult :=
  { count := JSNum.int 0, pmids := [], query_translation := "" }

/-! ## XML parsing utilities (decoders) -/

/-- The push-if-truthy loop `elems.forEach(e => { const t =
e.textContent; if (t) out.push(t); })` shared by the decoders. -/
def pushTexts (elems : List XElem) : List String :=
  elems.foldl (fun acc e => if e.text == "" then acc else acc ++ [e.text]) []

/-- Embedding of `parseESearchXML`.  `domParse` is the DOMParser
oracle; `none` models a parse failure, which the catch block turns
into the empty result. -/
def parseESearchXML (domParse : String → Option XElem) (xmlText : String) : SearchResult :=
  match domParse xmlText with
  | none => { count := JSNum.int 0, pmids := [], query_translation := "" }
  | some doc =>
    let count :=
      match docFirst doc "Count" with
      | some e => if e.text == "" then JSNum.int 0 else jsParseInt e.text
      | none => JSNum.int 0
    let pmids := pushTexts (docAll doc "Id")
    let query_translation :=
      match docFirst doc "QueryTranslation" with
      | some e => e.text
      | none => ""
    { count := count, pmids := pmids, query_translation := query_translation }

/-- The body of the author forEach loop of `parseEFetchXML`: push
`"ForeName LastName"` when both are truthy, the last name alone when
only it is truthy, and push nothing otherwise. -/
def authorStep (authors : List String) (author : XElem) : List String :=
  let lastname := (elemFirst author "LastName").map XElem.text
  let forename := (elemFirst author "ForeName").map XElem.text
  if jsTruthy forename && jsTruthy lastname then
    authors ++ [forename.getD "" ++ " " ++ lastname.getD ""]
  else if jsTruthy lastname then
    authors ++ [lastname.getD ""]
  else authors

/-- The author loop of `parseEFetchXML`. -/
def parseAuthors (authorElems : List XElem) : List String :=
  authorElems.foldl authorStep []

/-- Embedding of the per-article body of `parseEFetchXML`. -/
def parseArticle (articleElem : XElem) : Article :=
  { pmid := ((elemFirst articleElem "PMID").map XElem.text).getD ""
    title := ((elemFirst articleElem "ArticleTitle").map XElem.text).getD ""
    authors := parseAuthors (elemAll articleElem "Author")
    journal := ((elemFirstUnder articleElem "Journal" "Title").map XElem.text).getD ""
    pub_date :=
      let year := ((elemFirstUnder articleElem "PubDate" "Year").map XElem.text).getD ""
      let month := ((elemFirstUnder articleElem "PubDate" "Month").map XElem.text).getD ""
      if month == "" then year else year ++ "-" ++ month
    abstract := String.intercalate " " (pushTexts (elemAll articleElem "AbstractText"))
    doi :=
      (elemAll articleElem "ArticleId").foldl
        (fun doi e => if e.attrs.lookup "IdType" == some "doi" then e.text else doi) "" }

/-- Embedding of `parseEFetchXML`: one `Article` per `PubmedArticle`
element, pushed in document order; a parse failure yields `[]`. -/
def parseEFetchXML (domParse : String → Option XElem) (xmlText : String) : List Article :=
  match domParse xmlText with
  | none => []
  | some doc => (docAll doc "PubmedArticle").foldl (fun acc a => acc ++ [parseArticle a]) []

/-- Embedding of `parseELinkXML`: the text of every `Link Id` element,
in document order; a parse failure yields `[]`. -/
def parseELinkXML (domParse : String → Option XElem) (xmlText : String) : List String :=
  match domParse xmlText with
  | none => []
  | some doc => pushTexts (docAllUnder doc "Link" "Id")

/-! ## HTTP utilities with caching -/

def EUTILS_BASE : String := "https://eutils.ncbi.nlm.nih.gov/entrez/eutils"

def MAX_RETRIES : Nat := 3

def CACHE_TTL : Nat := 3600

/-- The cached `{ xml?: string; text?: string }` payload object. -/
structure Payload where
  xml? : Option String
  text? : Option String
deriving DecidableEq

def emptyPayload : Payload := { xml? := none, text? := none }

/-- Embedding of `getCacheKey`: parameter names sorted (default JS
sort order), joined as `name=value` pairs with `&`. -/
def getCacheKey (url : String) (params : List (String × String)) : String :=
  let sortedParams :=
    String.intercalate "&"
      (((params.map Prod.fst).insertionSort strRel).map
        (fun key => key ++ "=" ++ ((params.lookup key).getD "")))
  "pubmed:" ++ url ++ ":" ++ sortedParams

/-- Model of the JavaScript property write `params[key] = v` on a
record: overwrite in place when the key exists, append otherwise. -/
def setParam (params : List (String × String)) (key v : String) : List (String × String) :=
  if params.any (fun e => e.1 == key) then
    params.map (fun e => if e.1 == key then (key, v) else e)
  else params ++ [(key, v)]

/-- The API-key injection at the top of `fetchWithRetry`:
`if (apiKey && apiKey.length > 0) params.api_key = apiKey`. -/
def injectApiKey (params : List (String × String)) (apiKey : Option String) : List (String × String) :=
  match apiKey with
  | some key => if key.length > 0 then setParam params "api_key" key else params
  | none => params

/-- One upstream HTTP response (the resolved value of `fetch`). -/
structure HttpResponse where
  status : Nat
  statusText : String
  contentType : Option String
  body : String

/-- Model of `Response.ok`: status in the range 200 to 299. -/
def HttpResponse.isOk (r : HttpResponse) : Bool :=
  decide (200 ≤ r.status) && decide (r.status ≤ 299)

/-- Outcome of the try-block body of one retry-loop iteration: either
a `return` from the whole function (with a flag recording whether the
payload was written to the cache first) or an exception reaching the
catch block. -/
inductive AttemptStep where
  | ret (p : Payload) (cached : Bool)
  | err (msg : String)

/-- The body of one iteration of the retry loop, applied to the
outcome of its `fetch` call: 404 returns the empty payload without
caching; any other non-2xx status throws; a 2xx response is classified
by a case-insensitive content-type check and cached. -/
def runAttempt (outcome : Except String HttpResponse) : AttemptStep :=
  match outcome with
  | .error e => .err e
  | .ok response =>
    if response.status = 404 then .ret emptyPayload false
    else if response.isOk = false then
      .err ("HTTP " ++ toString response.status ++ ": " ++ response.statusText)
    else
      let contentType := (response.contentType.map lowerStr).getD ""
      let result :=
        if jsIncludes contentType "xml" then { xml? := some response.body, text? := none }
        else { xml? := none, text? := some response.body }
      .ret result true

/-- Observable trace of one `fetchWithRetry` call past the cache
lookup: the number of GET attempts made, the backoff sleeps performed
(in ms, in order), the payload stored to the cache (if any), and the
returned payload or propagated failure. -/
structure FetchTrace where
  attempts : Nat
  sleeps : List Nat
  cached : Option Payload
  result : Except String Payload

/-- The retry loop `for (attempt = 0; attempt < MAX_RETRIES; attempt++)`.
The fuel argument maintains `fuel = MAX_RETRIES - attempt`, so `fuel = 0`
inside the loop body is the `attempt === MAX_RETRIES - 1` check, on which
the final failure is rethrown; otherwise the loop sleeps
`2 ^ attempt * 1000` ms and retries.  The `return {}` after the loop
(unreachable in the source) is the zero-fuel base case. -/
def fetchLoopAux (behav : Nat → Except String HttpResponse) :
    Nat → Nat → List Nat → FetchTrace
  | 0, attempt, sleeps =>
    { attempts := attempt, sleeps := sleeps, cached := none, result := .ok emptyPayload }
  | fuel + 1, attempt, sleeps =>
    match runAttempt (behav attempt) with
    | .ret p c =>
      { attempts := attempt + 1, sleeps := sleeps,
        cached := if c then some p else none, result := .ok p }
    | .err e =>
      if fuel = 0 then
        { attempts := attempt + 1, sleeps := sleeps, cached := none, result := .error e }
      else
        fetchLoopAux behav fuel (attempt + 1) (sleeps ++ [2 ^ attempt * 1000])

/-- Result of a whole `fetchWithRetry` call: the parameter record as
the function leaves it (the source mutates the caller record in
place), the cache key computed from it, and the trace. -/
structure FetchCall where
  finalParams : List (String × String)
  cacheKey : String
  trace : FetchTrace

/-- Embedding of `fetchWithRetry`: inject the API key, compute the
cache key, short-circuit on a cache hit, otherwise run the retry
loop. -/
def fetchWithRetry (url : String) (params : List (String × String)) (apiKey : Option String)
    (cacheLookup : String → Option Payload) (behav : Nat → Except String HttpResponse) :
    FetchCall :=
  let ps := injectApiKey params apiKey
  let key := getCacheKey url ps
  { finalParams := ps
    cacheKey := key
    trace :=
      match cacheLookup key with
      | some cached =>
        { attempts := 0, sleeps := [], cached := none, result := .ok cached }
      | none => fetchLoopAux behav MAX_RETRIES 0 [] }

/-! ## Tool implementations -/

/-- The external collaborators a tool invocation runs against: the
cache store, the network (one outcome per attempt index), the
DOMParser, and the current UTC year read from `new Date()`. -/
structure FetchEnv where
  cacheLookup : String → Option Payload
  behav : Nat → Except String HttpResponse
  domParse : String → Option XElem
  utcYear : Int

/-- The `Math.min(Math.max(1, maxResults), 100)` clamp shared by the
five search tools. -/
def clampMax (m : Int) : Int := min (max 1 m) 100

def esearchUrl : String := EUTILS_BASE ++ "/esearch.fcgi"

def efetchUrl : String := EUTILS_BASE ++ "/efetch.fcgi"

def elinkUrl : String := EUTILS_BASE ++ "/elink.fcgi"

structure SearchArticlesParams where
  query : String
  max_results : Option Int
  min_date : Option String
  max_date : Option String
  sort_by : Option String

/-- Query string built by `searchArticles`: the base query with
optional ` AND {date}[PDAT]` filters appended (truthy check on each
date). -/
def searchArticlesQuery (p : SearchArticlesParams) : String :=
  let q := p.query
  let q := if jsTruthy p.min_date then q ++ " AND " ++ p.min_date.getD "" ++ "[PDAT]" else q
  if jsTruthy p.max_date then q ++ " AND " ++ p.max_date.getD "" ++ "[PDAT]" else q

/-- The `urlParams` record built by `searchArticles` (default
`max_results` 20, default sort relevance). -/
def searchArticlesParamsList (p : SearchArticlesParams) : List (String × String) :=
  [("db", "pubmed"),
   ("term", searchArticlesQuery p),
   ("retmax", toString (clampMax (p.max_results.getD 20))),
   ("retmode", "xml"),
   ("sort", if p.sort_by.getD "relevance" == "relevance" then "relevance" else "pub_date")]

/-- Embedding of TOOL 1 `searchArticles`: build the params, fetch,
decode; the catch block and the untruthy-xml path both yield the empty
result. -/
def searchArticles (p : SearchArticlesParams) (apiKey : Option String) (env : FetchEnv) :
    SearchResult :=
  match (fetchWithRetry esearchUrl (searchArticlesParamsList p) apiKey
      env.cacheLookup env.behav).trace.result with
  | .error _ => { count := JSNum.int 0, pmids := [], query_translation := "" }
  | .ok result =>
    if jsTruthy result.xml? then parseESearchXML env.domParse (result.xml?.getD "")
    else { count := JSNum.int 0, pmids := [], query_translation := "" }

structure GetArticleDetailsParams where
  pmids : List String
  include_abstract : Option Bool

/-- The `urlParams` record built by `getArticleDetails`: ids truncated
to the first 200 and comma-joined with no spaces; `rettype` is
`abstract` when abstracts are requested (default true), else
`medline`. -/
def getArticleDetailsParamsList (p : GetArticleDetailsParams) : List (String × String) :=
  [("db", "pubmed"),
   ("id", String.intercalate "," (p.pmids.take 200)),
   ("retmode", "xml"),
   ("rettype", if p.include_abstract.getD true then "abstract" else "medline")]

/-- Embedding of TOOL 2 `getArticleDetails`. -/
def getArticleDetails (p : GetArticleDetailsParams) (apiKey : Option String) (env : FetchEnv) :
    List Article :=
  if p.pmids.isEmpty then []
  else
    match (fetchWithRetry efetchUrl (getArticleDetailsParamsList p) apiKey
        env.cacheLookup env.behav).trace.result with
    | .error _ => []
    | .ok result =>
      if jsTruthy result.xml? then parseEFetchXML env.domParse (result.xml?.getD "")
      else []

structure SearchByCompoundParams where
  compound_name : String
  include_synonyms : Option Bool
  max_results : Option Int
  years_back : Option Int

/-- Query string built by `searchByCompound` (synonym expansion on by
default; `years_back` defaults to 10 and, when positive, appends a
PDAT range ending at the current UTC year). -/
def searchByCompoundQuery (p : SearchByCompoundParams) (utcYear : Int) : String :=
  let query :=
    if p.include_synonyms.getD true then
      "\"" ++ p.compound_name ++ "\"[MeSH Terms] OR \"" ++ p.compound_name ++ "\"[All Fields]"
    else "\"" ++ p.compound_name ++ "\"[All Fields]"
  let yearsBack := p.years_back.getD 10
  if yearsBack > 0 then
    query ++ " AND " ++ toString (utcYear - yearsBack) ++ ":" ++ toString utcYear ++ "[PDAT]"
  else query

/-- The `urlParams` record built by `searchByCompound` (default
`max_results` 20). -/
def searchByCompoundParamsList (p : SearchByCompoundParams) (utcYear : Int) :
    List (String × String) :=
  [("db", "pubmed"),
   ("term", searchByCompoundQuery p utcYear),
   ("retmax", toString (clampMax (p.max_results.getD 20))),
   ("retmode", "xml"),
   ("sort", "relevance")]

/-- Embedding of TOOL 3 `searchByCompound`. -/
def searchByCompound (p : SearchByCompoundParams) (apiKey : Option String) (env : FetchEnv) :
    SearchResult :=
  match (fetchWithRetry esearchUrl (searchByCompoundParamsList p env.utcYear) apiKey
      env.cacheLookup env.behav).trace.result with
  | .error _ => { count := JSNum.int 0, pmids := [], query_translation := "" }
  | .ok result =>
    if jsTruthy result.xml? then parseESearchXML env.domParse (result.xml?.getD "")
    else { count := JSNum.int 0, pmids := [], query_translation := "" }

structure SearchClinicalTrialsParams where
  condition_or_drug : String
  trial_phase : Option String
  max_results : Option Int

/-- Query string built by `searchClinicalTrials` (truthy check on the
optional phase filter). -/
def searchClinicalTrialsQuery (p : SearchClinicalTrialsParams) : String :=
  let query := "(" ++ p.condition_or_drug ++
    ") AND (\"clinical trial\"[Publication Type] OR \"clinical trial\"[All Fields])"
  if jsTruthy p.trial_phase then query ++ " AND \"" ++ p.trial_phase.getD "" ++ "\"[All Fields]"
  else query

/-- The `urlParams` record built by `searchClinicalTrials` (default
`max_results` 20, sorted by publication date). -/
def searchClinicalTrialsParamsList (p : SearchClinicalTrialsParams) : List (String × String) :=
  [("db", "pubmed"),
   ("term", searchClinicalTrialsQuery p),
   ("retmax", toString (clampMax (p.max_results.getD 20))),
   ("retmode", "xml"),
   ("sort", "pub_date")]

/-- Embedding of TOOL 4 `searchClinicalTrials`. -/
def searchClinicalTrials (p : SearchClinicalTrialsParams) (apiKey : Option String)
    (env : FetchEnv) : SearchResult :=
  match (fetchWithRetry esearchUrl (searchClinicalTrialsParamsList p) apiKey
      env.cacheLookup env.behav).trace.result with
  | .error _ => { count := JSNum.int 0, pmids := [], query_translation := "" }
  | .ok result =>
    if jsTruthy result.xml? then parseESearchXML env.domParse (result.xml?.getD "")
    else { count := JSNum.int 0, pmids := [], query_translation := "" }

structure SearchByAuthorParams where
  author_name : String
  affiliation : Option String
  max_results : Option Int

/-- Query string built by `searchByAuthor` (truthy check on the
optional affiliation filter). -/
def searchByAuthorQuery (p : SearchByAuthorParams) : String :=
  let query := "\"" ++ p.author_name ++ "\"[Author]"
  if jsTruthy p.affiliation then query ++ " AND \"" ++ p.affiliation.getD "" ++ "\"[Affiliation]"
  else query

/-- The `urlParams` record built by `searchByAuthor` (default
`max_results` 50, sorted by publication date). -/
def searchByAuthorParamsList (p : SearchByAuthorParams) : List (String × String) :=
  [("db", "pubmed"),
   ("term", searchByAuthorQuery p),
   ("retmax", toString (clampMax (p.max_results.getD 50))),
   ("retmode", "xml"),
   ("sort", "pub_date")]

/-- Embedding of TOOL 5 `searchByAuthor`. -/
def searchByAuthor (p : SearchByAuthorParams) (apiKey : Option String) (env : FetchEnv) :
    SearchResult :=
  match (fetchWithRetry esearchUrl (searchByAuthorParamsList p) apiKey
      env.cacheLookup env.behav).trace.result with
  | .error _ => { count := JSNum.int 0, pmids := [], query_translation := "" }
  | .ok result =>
    if jsTruthy result.xml? then parseESearchXML env.domParse (result.xml?.getD "")
    else { count := JSNum.int 0, pmids := [], query_translation := "" }

structure AdvancedBooleanSearchParams where
  query : String
  max_results : Option Int
  sort_by : Option String

/-- The `urlParams` record built by `advancedBooleanSearch`: the
caller query is passed directly as `term` with no preprocessing
(default `max_results` 20, default sort relevance). -/
def advancedBooleanSearchParamsList (p : AdvancedBooleanSearchParams) :
    List (String × String) :=
  [("db", "pubmed"),
   ("term", p.query),
   ("retmax", toString (clampMax (p.max_results.getD 20))),
   ("retmode", "xml"),
   ("sort", if p.sort_by.getD "relevance" == "relevance" then "relevance" else "pub_date")]

/-- Embedding of TOOL 6 `advancedBooleanSearch`. -/
def advancedBooleanSearch (p : AdvancedBooleanSearchParams) (apiKey : Option String)
    (env : FetchEnv) : SearchResult :=
  match (fetchWithRetry esearchUrl (advancedBooleanSearchParamsList p) apiKey
      env.cacheLookup env.behav).trace.result with
  | .error _ => { count := JSNum.int 0, pmids := [], query_translation := "" }
  | .ok result =>
    if jsTruthy result.xml? then parseESearchXML env.domParse (result.xml?.getD "")
    else { count := JSNum.int 0, pmids := [], query_translation := "" }

structure GetArticleCitationsParams where
  pmid : String
  max_results : Option Int

/-- The `urlParams` record built by `getArticleCitations` (note: no
`retmax` entry and no clamping of `max_results`). -/
def getArticleCitationsParamsList (p : GetArticleCitationsParams) : List (String × String) :=
  [("dbfrom", "pubmed"),
   ("db", "pubmed"),
   ("id", p.pmid),
   ("linkname", "pubmed_pubmed_citedin"),
   ("retmode", "xml")]

/-- Embedding of TOOL 7 `getArticleCitations`: decode, then truncate
client-side with `slice(0, maxResults)` where `maxResults` defaults to
50 (unclamped). -/
def getArticleCitations (p : GetArticleCitationsParams) (apiKey : Option String)
    (env : FetchEnv) : List String :=
  match (fetchWithRetry elinkUrl (getArticleCitationsParamsList p) apiKey
      env.cacheLookup env.behav).trace.result with
  | .error _ => []
  | .ok result =>
    if jsTruthy result.xml? then
      jsSliceTo (parseELinkXML env.domParse (result.xml?.getD "")) (p.max_results.getD 50)
    else []

/-! ## Helper lemmas -/

theorem char_eq_of_toNat_eq {a b : Char} (h : a.toNat = b.toNat) : a = b :=
  Char.ext (UInt32.ext h)

theorem charsLe_total (a b : List Char) : charsLe a b = true ∨ charsLe b a = true := by
  induction a generalizing b with
  | nil => left; rfl
  | cons x xs ih =>
    cases b with
    | nil => right; rfl
    | cons y ys =>
      rcases Nat.lt_trichotomy x.toNat y.toNat with h | h | h
      · left; simp [charsLe, h]
      · rcases ih ys with h2 | h2
        · left; simp [charsLe, h, h2]
        · right; simp [charsLe, h.symm, h2]
      · right; simp [charsLe, h]

theorem charsLe_antisymm (a b : List Char) (h1 : charsLe a b = true)
    (h2 : charsLe b a = true) : a = b := by
  induction a generalizing b with
  | nil =>
    cases b with
    | nil => rfl
    | cons y ys => simp [charsLe] at h2
  | cons x xs ih =>
    cases b with
    | nil => simp [charsLe] at h1
    | cons y ys =>
      rcases Nat.lt_trichotomy x.toNat y.toNat with h | h | h
      · rw [charsLe] at h2
        simp [Nat.lt_asymm h, h] at h2
      · have hxy : x = y := char_eq_of_toNat_eq h
        subst hxy
        rw [charsLe] at h1 h2
        simp at h1 h2
        exact congrArg (x :: ·) (ih ys h1 h2)
      · rw [charsLe] at h1
        simp [Nat.lt_asymm h, h] at h1

theorem charsLe_trans (a b c : List Char) (h1 : charsLe a b = true)
    (h2 : charsLe b c = true) : charsLe a c = true := by
  induction a generalizing b c with
  | nil => rfl
  | cons x xs ih =>
    cases b with
    | nil => simp [charsLe] at h1
    | cons y ys =>
      cases c with
      | nil => simp [charsLe] at h2
      | cons z zs =>
        rw [charsLe] at h1 h2 ⊢
        rcases Nat.lt_trichotomy x.toNat y.toNat with hxy | hxy | hxy <;>
          rcases Nat.lt_trichotomy y.toNat z.toNat with hyz | hyz | hyz <;>
          simp [hxy, hyz, Nat.lt_asymm, Nat.lt_irrefl] at h1 h2 ⊢ <;>
          first
            | omega
            | exact ih ys zs h1 h2

theorem strRel_total (a b : String) : strRel a b ∨ strRel b a :=
  charsLe_total a.data b.data

theorem strRel_antisymm (a b : String) (h1 : strRel a b) (h2 : strRel b a) : a = b := by
  cases a; cases b
  exact congrArg String.mk (charsLe_antisymm _ _ h1 h2)

theorem strRel_trans (a b c : String) (h1 : strRel a b) (h2 : strRel b c) : strRel a c :=
  charsLe_trans a.data b.data c.data h1 h2

instance : IsTotal String strRel := ⟨strRel_total⟩

instance : IsTrans String strRel := ⟨fun a b c => strRel_trans a b c⟩

instance : IsAntisymm String strRel := ⟨strRel_antisymm⟩

theorem lookup_eq_of_perm {p q : List (String × String)} (h : p.Perm q) :
    (p.map Prod.fst).Nodup → ∀ k : String, p.lookup k = q.lookup k := by
  induction h with
  | nil => intro _ k; rfl
  | cons x h ih =>
    intro hnd k
    obtain ⟨x1, x2⟩ := x
    simp only [List.map_cons, List.nodup_cons] at hnd
    cases hk : (k == x1) <;> simp only [List.lookup, hk]
    exact ih hnd.2 k
  | swap x y l =>
    intro hnd k
    obtain ⟨x1, x2⟩ := x
    obtain ⟨y1, y2⟩ := y
    simp only [List.map_cons, List.nodup_cons, List.mem_cons] at hnd
    have hne : y1 ≠ x1 := fun he => hnd.1 (Or.inl he)
    cases hky : (k == y1) <;> cases hkx : (k == x1) <;>
      simp only [List.lookup, hky, hkx]
    exact absurd ((eq_of_beq hky).symm.trans (eq_of_beq hkx)) hne
  | trans h1 h2 ih1 ih2 =>
    intro hnd k
    rw [ih1 hnd k]
    exact ih2 ((h1.map Prod.fst).nodup_iff.mp hnd) k

theorem pushTexts_foldl_eq (l : List XElem) :
    ∀ acc : List String,
      l.foldl (fun acc e => if e.text == "" then acc else acc ++ [e.text]) acc =
        acc ++ l.filterMap (fun e => if e.text == "" then none else some e.text) := by
  induction l with
  | nil => intro acc; simp
  | cons e es ih =>
    intro acc
    simp only [beq_iff_eq] at ih ⊢
    by_cases he : e.text = "" <;>
      simp [he, ih, List.append_assoc]

theorem pushTexts_eq (l : List XElem) :
    pushTexts l = l.filterMap (fun e => if e.text == "" then none else some e.text) := by
  unfold pushTexts
  simpa using pushTexts_foldl_eq l []

theorem pushTexts_length_le (l : List XElem) : (pushTexts l).length ≤ l.length := by
  rw [pushTexts_eq]
  exact List.length_filterMap_le _ _

theorem foldl_push_eq_map {α β : Type} (f : α → β) (l : List α) :
    ∀ acc : List β, l.foldl (fun acc a => acc ++ [f a]) acc = acc ++ l.map f := by
  induction l with
  | nil => intro acc; simp
  | cons a as ih => intro acc; simp [ih, List.append_assoc]

theorem lookup_map_set (l : List (String × String)) (key v : String)
    (h : l.any (fun e => e.1 == key) = true) :
    (l.map (fun e => if e.1 == key then (key, v) else e)).lookup key = some v := by
  induction l with
  | nil => simp at h
  | cons hd tl ih =>
    obtain ⟨k1, v1⟩ := hd
    simp only [List.map_cons]
    by_cases hk : k1 = key
    · subst hk
      rw [if_pos (beq_self_eq_true k1), List.lookup, beq_self_eq_true]
    · have hb : (k1 == key) = false := beq_eq_false_iff_ne.mpr hk
      have hk2 : (key == k1) = false := beq_eq_false_iff_ne.mpr (Ne.symm hk)
      rw [if_neg (by simp [hb]), List.lookup, hk2]
      exact ih (by simpa [List.any_cons, hb] using h)

theorem lookup_append_set (l : List (String × String)) (key v : String)
    (h : l.any (fun e => e.1 == key) = false) :
    (l ++ [(key, v)]).lookup key = some v := by
  induction l with
  | nil => rw [List.nil_append, List.lookup, beq_self_eq_true]
  | cons hd tl ih =>
    obtain ⟨k1, v1⟩ := hd
    simp only [List.any_cons, Bool.or_eq_false_iff] at h
    have hk2 : (key == k1) = false :=
      beq_eq_false_iff_ne.mpr (Ne.symm (beq_eq_false_iff_ne.mp h.1))
    rw [List.cons_append, List.lookup, hk2]
    exact ih h.2

theorem lookup_setParam (l : List (String × String)) (key v : String) :
    (setParam l key v).lookup key = some v := by
  unfold setParam
  cases h : l.any (fun e => e.1 == key) with
  | true => simpa [h] using lookup_map_set l key v h
  | false => simpa [h] using lookup_append_set l key v h

theorem fetchWithRetry_trace_of_miss (url : String) (params : List (String × String))
    (apiKey : Option String) (cacheLookup : String → Option Payload)
    (behav : Nat → Except String HttpResponse) (hmiss : ∀ key, cacheLookup key = none) :
    (fetchWithRetry url params apiKey cacheLookup behav).trace =
      fetchLoopAux behav MAX_RETRIES 0 [] := by
  simp [fetchWithRetry, hmiss]

theorem fetchLoopAux_attempts_le (behav : Nat → Except String HttpResponse) :
    ∀ (fuel attempt : Nat) (sleeps : List Nat),
      (fetchLoopAux behav fuel attempt sleeps).attempts ≤ attempt + fuel := by
  intro fuel
  induction fuel with
  | zero => intro attempt sleeps; simp [fetchLoopAux]
  | succ n ih =>
    intro attempt sleeps
    cases h : runAttempt (behav attempt) with
    | ret p c =>
      simp only [fetchLoopAux, h]
      omega
    | err e =>
      by_cases hn : n = 0
      · simp only [fetchLoopAux, h, hn, reduceIte]
        omega
      · simp only [fetchLoopAux, h, if_neg hn]
        exact le_of_le_of_eq (ih (attempt + 1) (sleeps ++ [2 ^ attempt * 1000])) (by omega)

theorem fetchLoopAux_allfail (behav : Nat → Except String HttpResponse) (es : Nat → String)
    (h : ∀ i, i < 3 → runAttempt (behav i) = AttemptStep.err (es i)) :
    fetchLoopAux behav MAX_RETRIES 0 [] =
      { attempts := 3, sleeps := [1000, 2000], cached := none,
        result := Except.error (es 2) } := by
  have h0 := h 0 (by omega)
  have h1 := h 1 (by omega)
  have h2 := h 2 (by omega)
  simp [MAX_RETRIES, fetchLoopAux, h0, h1, h2]

theorem fetchLoopAux_allfail_exists (behav : Nat → Except String HttpResponse)
    (h : ∀ i, ∃ m, runAttempt (behav i) = AttemptStep.err m) :
    ∃ e, (fetchLoopAux behav MAX_RETRIES 0 []).result = Except.error e := by
  obtain ⟨m0, h0⟩ := h 0
  obtain ⟨m1, h1⟩ := h 1
  obtain ⟨m2, h2⟩ := h 2
  exact ⟨m2, by simp [MAX_RETRIES, fetchLoopAux, h0, h1, h2]⟩

/-! ## Claim C3 -/

/-- C3: each of the three decode functions is total over every parse
outcome and never raises: a top-level parse failure (the oracle
returning none) yields the corresponding empty result, a missing or
empty Count gives count 0, missing identifier elements give the empty
list, a missing QueryTranslation gives the empty string, and each
field of a decoded article degrades to its empty default when its
source element is missing. -/
theorem pubmed_C3 :
    (∀ (domParse : String → Option XElem) (s : String), domParse s = none →
      parseESearchXML domParse s =
          { count := JSNum.int 0, pmids := [], query_translation := "" } ∧
        parseEFetchXML domParse s = [] ∧ parseELinkXML domParse s = []) ∧
    (∀ (domParse : String → Option XElem) (s : String) (d : XElem), domParse s = some d →
      (docFirst d "Count" = none → (parseESearchXML domParse s).count = JSNum.int 0) ∧
      (∀ e, docFirst d "Count" = some e → e.text = "" →
        (parseESearchXML domParse s).count = JSNum.int 0) ∧
      (docAll d "Id" = [] → (parseESearchXML domParse s).pmids = []) ∧
      (docFirst d "QueryTranslation" = none →
        (parseESearchXML domParse s).query_translation = "") ∧
      (parseEFetchXML domParse s = (docAll d "PubmedArticle").map parseArticle) ∧
      (docAllUnder d "Link" "Id" = [] → parseELinkXML domParse s = [])) ∧
    (∀ a : XElem,
      (elemFirst a "PMID" = none → (parseArticle a).pmid = "") ∧
      (elemFirst a "ArticleTitle" = none → (parseArticle a).title = "") ∧
      (elemAll a "Author" = [] → (parseArticle a).authors = []) ∧
      (elemFirstUnder a "Journal" "Title" = none → (parseArticle a).journal = "") ∧
      (elemFirstUnder a "PubDate" "Year" = none →
        elemFirstUnder a "PubDate" "Month" = none → (parseArticle a).pub_date = "") ∧
      (elemAll a "AbstractText" = [] → (parseArticle a).abstract = "") ∧
      (elemAll a "ArticleId" = [] → (parseArticle a).doi = "")) := by
  refine ⟨?_, ?_, ?_⟩
  · intro domParse s h
    exact ⟨by simp [parseESearchXML, h], by simp [parseEFetchXML, h], by simp [parseELinkXML, h]⟩
  · intro domParse s d h
    refine ⟨?_, ?_, ?_, ?_, ?_, ?_⟩
    · intro h2; simp [parseESearchXML, h, h2]
    · intro e h2 h3; simp [parseESearchXML, h, h2, h3]
    · intro h2; simp [parseESearchXML, h, pushTexts, h2]
    · intro h2; simp [parseESearchXML, h, h2]
    · simp only [parseEFetchXML, h]
      simpa using foldl_push_eq_map parseArticle (docAll d "PubmedArticle") []
    · intro h2; simp [parseELinkXML, h, pushTexts, h2]
  · intro a
    refine ⟨?_, ?_, ?_, ?_, ?_, ?_, ?_⟩
    · intro h2; simp [parseArticle, h2]
    · intro h2; simp [parseArticle, h2]
    · intro h2; simp [parseArticle, parseAuthors, h2]
    · intro h2; simp [parseArticle, h2]
    · intro h2 h3; simp [parseArticle, h2, h3]
    · intro h2
      simp only [parseArticle, pushTexts, h2, List.foldl_nil]
      rfl
    · intro h2; simp [parseArticle, h2]

/-- Witness for C3: the defaults at concrete degenerate inputs. -/
theorem pubmed_C3_witness :
    parseESearchXML (fun _ => none) "<bad" =
        { count := JSNum.int 0, pmids := [], query_translation := "" } ∧
      (parseESearchXML (fun _ => some (XElem.mk "e" [] "" [])) "<e/>").count = JSNum.int 0 ∧
      (parseArticle (XElem.mk "PubmedArticle" [] "" [])).pub_date = "" :=
  ⟨(pubmed_C3.1 (fun _ => none) "<bad" rfl).1,
   (pubmed_C3.2.1 (fun _ => some (XElem.mk "e" [] "" [])) "<e/>" (XElem.mk "e" [] "" []) rfl).1
     rfl,
   (pubmed_C3.2.2 (XElem.mk "PubmedArticle" [] "" [])).2.2.2.2.1 rfl rfl⟩

/-! ## Claim C7 -/

/-- C7: the cache key is invariant under permutation of the parameter
record entries: getCacheKey sorts the parameter names and joins
name=value pairs with an ampersand, so any reordering of a mapping
with distinct names yields the identical key. -/
theorem pubmed_C7 (url : String) (p q : List (String × String))
    (hnd : (p.map Prod.fst).Nodup) (hperm : p.Perm q) :
    getCacheKey url p = getCacheKey url q := by
  have hkeys : (p.map Prod.fst).Perm (q.map Prod.fst) := hperm.map Prod.fst
  have hsorted : (p.map Prod.fst).insertionSort strRel =
      (q.map Prod.fst).insertionSort strRel :=
    List.eq_of_perm_of_sorted
      ((List.perm_insertionSort strRel _).trans
        (hkeys.trans (List.perm_insertionSort strRel _).symm))
      (List.sorted_insertionSort strRel _) (List.sorted_insertionSort strRel _)
  have hfun : (fun key => key ++ "=" ++ ((p.lookup key).getD "")) =
      (fun key => key ++ "=" ++ ((q.lookup key).getD "")) :=
    funext fun k => by rw [lookup_eq_of_perm hperm hnd k]
  unfold getCacheKey
  rw [hsorted, hfun]

/-- Witness for C7 at a concrete reordered mapping. -/
theorem pubmed_C7_witness :
    getCacheKey "u" [("term", "x"), ("db", "pubmed")] =
      getCacheKey "u" [("db", "pubmed"), ("term", "x")] :=
  pubmed_C7 "u" [("term", "x"), ("db", "pubmed")] [("db", "pubmed"), ("term", "x")]
    (by decide) (by decide)

/-! ## Claim C8 -/

/-- C8: advanced_boolean_search places the caller query byte-identical
into the term parameter: both in the params record it builds and in
the final record the fetcher uses after API-key injection. -/
theorem pubmed_C8 (p : AdvancedBooleanSearchParams) (apiKey : Option String)
    (cacheLookup : String → Option Payload) (behav : Nat → Except String HttpResponse) :
    ((advancedBooleanSearchParamsList p).lookup "term" = some p.query) ∧
    ((fetchWithRetry esearchUrl (advancedBooleanSearchParamsList p) apiKey cacheLookup
        behav).finalParams.lookup "term" = some p.query) := by
  refine ⟨rfl, ?_⟩
  cases apiKey with
  | none => rfl
  | some key =>
    have hfp : (fetchWithRetry esearchUrl (advancedBooleanSearchParamsList p) (some key)
        cacheLookup behav).finalParams =
        (if key.length > 0 then
          setParam (advancedBooleanSearchParamsList p) "api_key" key
         else advancedBooleanSearchParamsList p) := rfl
    by_cases hk : key.length > 0
    · rw [hfp, if_pos hk]; rfl
    · rw [hfp, if_neg hk]; rfl

/-! ## Claim C9 -/

/-- Modelled from the spec for comparison with the decoder: the author
formatting rule as the design states it, namely a First Last string
when both the given name and the family name are present (truthy), the
family name alone when only it is present, and no entry at all
otherwise. -/
def authorSpecFormat (author : XElem) : Option String :=
  let forename := (elemFirst author "ForeName").map XElem.text
  let lastname := (elemFirst author "LastName").map XElem.text
  if jsTruthy forename && jsTruthy lastname then
    some (forename.getD "" ++ " " ++ lastname.getD "")
  else if jsTruthy lastname then some (lastname.getD "")
  else none

theorem parseAuthors_foldl_eq (elems : List XElem) :
    ∀ acc : List String,
      elems.foldl authorStep acc = acc ++ elems.filterMap authorSpecFormat := by
  induction elems with
  | nil => intro acc; simp
  | cons a as ih =>
    intro acc
    have hstep : authorStep acc a = acc ++ (authorSpecFormat a).toList := by
      cases hf : jsTruthy ((elemFirst a "ForeName").map XElem.text) <;>
        cases hl : jsTruthy ((elemFirst a "LastName").map XElem.text) <;>
          simp [authorStep, authorSpecFormat, hf, hl]
    rw [List.foldl_cons, hstep, ih, List.filterMap_cons]
    cases hA : authorSpecFormat a <;> simp [List.append_assoc]

/-- C9: the author loop of the decoder equals, entry for entry and in
document order, the spec formatting rule: ForeName plus LastName when
both are present, LastName alone when only it is, and the author
silently omitted otherwise; the order of the surviving authors is the
document order (filterMap preserves it). -/
theorem pubmed_C9 :
    (∀ elems : List XElem, parseAuthors elems = elems.filterMap authorSpecFormat) ∧
    (∀ a : XElem,
      jsTruthy ((elemFirst a "ForeName").map XElem.text) = true →
      jsTruthy ((elemFirst a "LastName").map XElem.text) = true →
      parseAuthors [a] =
        [((elemFirst a "ForeName").map XElem.text).getD "" ++ " " ++
          ((elemFirst a "LastName").map XElem.text).getD ""]) ∧
    (∀ a : XElem,
      jsTruthy ((elemFirst a "ForeName").map XElem.text) = false →
      jsTruthy ((elemFirst a "LastName").map XElem.text) = true →
      parseAuthors [a] = [((elemFirst a "LastName").map XElem.text).getD ""]) ∧
    (∀ a : XElem,
      jsTruthy ((elemFirst a "ForeName").map XElem.text) = false →
      jsTruthy ((elemFirst a "LastName").map XElem.text) = false →
      parseAuthors [a] = []) := by
  refine ⟨?_, ?_, ?_, ?_⟩
  · intro elems
    unfold parseAuthors
    simpa using parseAuthors_foldl_eq elems []
  · intro a hf hl; simp [parseAuthors, authorStep, hf, hl]
  · intro a hf hl; simp [parseAuthors, authorStep, hf, hl]
  · intro a hf hl; simp [parseAuthors, authorStep, hf, hl]

/-- Witness for C9 at three concrete author elements. -/
theorem pubmed_C9_witness :
    parseAuthors
        [XElem.mk "Author" [] ""
          [XElem.mk "LastName" [] "Doe" [], XElem.mk "ForeName" [] "Jane" []]] = ["Jane Doe"] ∧
      parseAuthors [XElem.mk "Author" [] "" [XElem.mk "LastName" [] "Doe" []]] = ["Doe"] ∧
      parseAuthors [XElem.mk "Author" [] "" [XElem.mk "CollectiveName" [] "Grp" []]] = [] :=
  ⟨pubmed_C9.2.1 _ rfl rfl, pubmed_C9.2.2.1 _ rfl rfl, pubmed_C9.2.2.2 _ rfl rfl⟩

/-! ## Claim C10 -/

/-- C10: when a non-empty API key is configured, the params record the
call uses (the source mutates the caller record in place) contains an
api_key entry holding the secret, and the cache key is computed from
that augmented record; when no key (or an empty one) is configured the
record is left unchanged.  This holds whatever the outcome of the
fetch. -/
theorem pubmed_C10 (url : String) (params : List (String × String)) (key : String)
    (cacheLookup : String → Option Payload) (behav : Nat → Except String HttpResponse)
    (hk : key.length > 0) :
    ((fetchWithRetry url params (some key) cacheLookup behav).finalParams =
        setParam params "api_key" key) ∧
    ((fetchWithRetry url params (some key) cacheLookup behav).finalParams.lookup "api_key" =
        some key) ∧
    ((fetchWithRetry url params (some key) cacheLookup behav).cacheKey =
        getCacheKey url (setParam params "api_key" key)) ∧
    (∀ p2, (fetchWithRetry url p2 none cacheLookup behav).finalParams = p2) ∧
    (∀ p2, (fetchWithRetry url p2 (some "") cacheLookup behav).finalParams = p2) := by
  have hfp : (fetchWithRetry url params (some key) cacheLookup behav).finalParams =
      setParam params "api_key" key := by
    show injectApiKey params (some key) = setParam params "api_key" key
    simp only [injectApiKey]
    rw [if_pos hk]
  refine ⟨hfp, ?_, ?_, fun p2 => rfl, fun p2 => rfl⟩
  · rw [hfp]; exact lookup_setParam params "api_key" key
  · show getCacheKey url (injectApiKey params (some key)) =
      getCacheKey url (setParam params "api_key" key)
    simp only [injectApiKey]
    rw [if_pos hk]

/-- Witness for C10 at a concrete key and record. -/
theorem pubmed_C10_witness :
    (fetchWithRetry "u" [("db", "pubmed")] (some "SECRET") (fun _ => none)
        (fun _ => Except.error "down")).finalParams.lookup "api_key" = some "SECRET" :=
  (pubmed_C10 "u" [("db", "pubmed")] "SECRET" (fun _ => none) (fun _ => Except.error "down")
      (by decide)).2.1

/-! ## Claim C5 -/

/-- C5: on a cache miss whose attempts raise retryable failures, at
most 3 GET attempts are made; when all three fail the fetcher sleeps
1000 ms then 2000 ms between attempts, propagates the failure of the
third attempt, caches nothing and makes no fourth attempt; a success
on attempt k (after k failures) returns that payload after k+1
attempts and the backoff sleeps 2 to the power i times 1000 for
i below k. -/
theorem pubmed_C5 (url : String) (params : List (String × String)) (apiKey : Option String)
    (cacheLookup : String → Option Payload) (behav : Nat → Except String HttpResponse)
    (hmiss : ∀ key, cacheLookup key = none) :
    ((fetchWithRetry url params apiKey cacheLookup behav).trace.attempts ≤ 3) ∧
    (∀ es : Nat → String, (∀ i, i < 3 → runAttempt (behav i) = AttemptStep.err (es i)) →
      (fetchWithRetry url params apiKey cacheLookup behav).trace =
        { attempts := 3, sleeps := [1000, 2000], cached := none,
          result := Except.error (es 2) }) ∧
    (∀ (k : Nat) (p : Payload) (c : Bool), k < 3 →
      (∀ i, i < k → ∃ m, runAttempt (behav i) = AttemptStep.err m) →
      runAttempt (behav k) = AttemptStep.ret p c →
      (fetchWithRetry url params apiKey cacheLookup behav).trace.result = Except.ok p ∧
      (fetchWithRetry url params apiKey cacheLookup behav).trace.attempts = k + 1 ∧
      (fetchWithRetry url params apiKey cacheLookup behav).trace.sleeps =
        (List.range k).map (fun i => 2 ^ i * 1000)) := by
  have htr := fetchWithRetry_trace_of_miss url params apiKey cacheLookup behav hmiss
  refine ⟨?_, ?_, ?_⟩
  · rw [htr]
    simpa [MAX_RETRIES] using fetchLoopAux_attempts_le behav MAX_RETRIES 0 []
  · intro es h
    rw [htr]
    exact fetchLoopAux_allfail behav es h
  · intro k p c hk hb hsucc
    rcases k with _ | _ | _ | k
    · refine ⟨?_, ?_, ?_⟩ <;> rw [htr] <;>
        simp [MAX_RETRIES, fetchLoopAux, hsucc]
    · obtain ⟨m0, h0⟩ := hb 0 (by omega)
      refine ⟨?_, ?_, ?_⟩ <;> rw [htr] <;>
        simp [MAX_RETRIES, fetchLoopAux, h0, hsucc, List.range_succ]
    · obtain ⟨m0, h0⟩ := hb 0 (by omega)
      obtain ⟨m1, h1⟩ := hb 1 (by omega)
      refine ⟨?_, ?_, ?_⟩ <;> rw [htr] <;>
        simp [MAX_RETRIES, fetchLoopAux, h0, h1, hsucc, List.range_succ]
    · omega

/-- Witness for C5: three failing attempts at a concrete behaviour. -/
theorem pubmed_C5_witness :
    (fetchWithRetry "u" [] none (fun _ => none) (fun _ => Except.error "netdown")).trace =
      { attempts := 3, sleeps := [1000, 2000], cached := none,
        result := Except.error "netdown" } :=
  (pubmed_C5 "u" [] none (fun _ => none) (fun _ => Except.error "netdown")
      (fun _ => rfl)).2.1 (fun _ => "netdown") (fun _ _ => rfl)

/-! ## Claim C6 -/

/-- C6: an attempt that gets HTTP status 404 makes fetchWithRetry
return the empty payload immediately: the attempt count stops at that
attempt, only the backoff sleeps of the earlier failed attempts were
performed, no failure is raised and nothing is stored in the cache. -/
theorem pubmed_C6 (url : String) (params : List (String × String)) (apiKey : Option String)
    (cacheLookup : String → Option Payload) (behav : Nat → Except String HttpResponse)
    (k : Nat) (r : HttpResponse) (es : Nat → String)
    (hmiss : ∀ key, cacheLookup key = none) (hk : k < 3)
    (hbefore : ∀ i, i < k → runAttempt (behav i) = AttemptStep.err (es i))
    (hat : behav k = Except.ok r) (h404 : r.status = 404) :
    (fetchWithRetry url params apiKey cacheLookup behav).trace =
      { attempts := k + 1, sleeps := (List.range k).map (fun i => 2 ^ i * 1000),
        cached := none, result := Except.ok emptyPayload } := by
  have hstep : runAttempt (behav k) = AttemptStep.ret emptyPayload false := by
    rw [hat]
    simp [runAttempt, h404]
  rw [fetchWithRetry_trace_of_miss url params apiKey cacheLookup behav hmiss]
  rcases k with _ | _ | _ | k
  · simp [MAX_RETRIES, fetchLoopAux, hstep]
  · have h0 := hbefore 0 (by omega)
    simp [MAX_RETRIES, fetchLoopAux, h0, hstep, List.range_succ]
  · have h0 := hbefore 0 (by omega)
    have h1 := hbefore 1 (by omega)
    simp [MAX_RETRIES, fetchLoopAux, h0, h1, hstep, List.range_succ]
  · omega

/-- Witness for C6: a 404 on the first attempt. -/
theorem pubmed_C6_witness :
    (fetchWithRetry "u" [] none (fun _ => none)
        (fun _ => Except.ok
          { status := 404, statusText := "NF", contentType := none, body := "" })).trace =
      { attempts := 0 + 1, sleeps := (List.range 0).map (fun i => 2 ^ i * 1000),
        cached := none, result := Except.ok emptyPayload } :=
  pubmed_C6 "u" [] none (fun _ => none)
    (fun _ => Except.ok { status := 404, statusText := "NF", contentType := none, body := "" })
    0 { status := 404, statusText := "NF", contentType := none, body := "" } (fun _ => "")
    (fun _ => rfl) (by omega) (fun i hi => absurd hi (Nat.not_lt_zero i)) rfl rfl

/-! ## Claim C4 -/

/-- C4: every tool operation absorbs any failure of the underlying
fetch pipeline, including a failure raised after retry exhaustion, and
returns the empty value of its result type (the empty SearchResult for
the searches, the empty list for article details and for citations)
rather than propagating the raised failure. -/
theorem pubmed_C4 (env : FetchEnv) (apiKey : Option String)
    (p1 : SearchArticlesParams) (p2 : GetArticleDetailsParams) (p3 : SearchByCompoundParams)
    (p4 : SearchClinicalTrialsParams) (p5 : SearchByAuthorParams)
    (p6 : AdvancedBooleanSearchParams) (p7 : GetArticleCitationsParams)
    (hmiss : ∀ key, env.cacheLookup key = none)
    (hfail : ∀ i, ∃ m, runAttempt (env.behav i) = AttemptStep.err m) :
    searchArticles p1 apiKey env = emptySearchResult ∧
    getArticleDetails p2 apiKey env = [] ∧
    searchByCompound p3 apiKey env = emptySearchResult ∧
    searchClinicalTrials p4 apiKey env = emptySearchResult ∧
    searchByAuthor p5 apiKey env = emptySearchResult ∧
    advancedBooleanSearch p6 apiKey env = emptySearchResult ∧
    getArticleCitations p7 apiKey env = [] := by
  obtain ⟨e, he⟩ := fetchLoopAux_allfail_exists env.behav hfail
  have htr : ∀ (url : String) (params : List (String × String)),
      (fetchWithRetry url params apiKey env.cacheLookup env.behav).trace.result =
        Except.error e := by
    intro url params
    rw [fetchWithRetry_trace_of_miss url params apiKey env.cacheLookup env.behav hmiss, he]
  refine ⟨?_, ?_, ?_, ?_, ?_, ?_, ?_⟩
  · unfold searchArticles; rw [htr]; rfl
  · unfold getArticleDetails
    by_cases hp : p2.pmids.isEmpty <;> simp [hp, htr]
  · unfold searchByCompound; rw [htr]; rfl
  · unfold searchClinicalTrials; rw [htr]; rfl
  · unfold searchByAuthor; rw [htr]; rfl
  · unfold advancedBooleanSearch; rw [htr]; rfl
  · unfold getArticleCitations; rw [htr]

/-- Environment in which the cache always misses and every attempt of
every fetch fails. -/
def envFail : FetchEnv :=
  { cacheLookup := fun _ => none
    behav := fun _ => Except.error "down"
    domParse := fun _ => none
    utcYear := 2025 }

/-- Witness for C4: two of the operations at concrete inputs in the
all-failing environment. -/
theorem pubmed_C4_witness :
    searchArticles
        { query := "q", max_results := none, min_date := none, max_date := none,
          sort_by := none } none envFail = emptySearchResult ∧
      getArticleCitations { pmid := "1", max_results := none } none envFail = [] := by
  have h := pubmed_C4 envFail none
    { query := "q", max_results := none, min_date := none, max_date := none, sort_by := none }
    { pmids := ["1"], include_abstract := none }
    { compound_name := "c", include_synonyms := none, max_results := none, years_back := none }
    { condition_or_drug := "d", trial_phase := none, max_results := none }
    { author_name := "a", affiliation := none, max_results := none }
    { query := "b", max_results := none, sort_by := none }
    { pmid := "1", max_results := none }
    (fun _ => rfl) (fun _ => ⟨"down", rfl⟩)
  exact ⟨h.1, h.2.2.2.2.2.2⟩

/-! ## Claim C1 -/

/-- Environment for exercising get_article_citations: the cache always
misses, every attempt succeeds with an XML payload, and the document
the parser returns holds exactly one citing id. -/
def envC1 : FetchEnv :=
  { cacheLookup := fun _ => none
    behav := fun _ => Except.ok
      { status := 200, statusText := "OK", contentType := some "text/xml",
        body := "<linkset/>" }
    domParse := fun _ => some
      (XElem.mk "eLinkResult" [] ""
        [XElem.mk "LinkSetDb" [] ""
          [XElem.mk "Link" [] "" [XElem.mk "Id" [] "99" []]]])
    utcYear := 2025 }

/-- C1 counterexample: get_article_citations does not clamp
max_results to the range 1 to 100.  With requested value 0 the clamp
would demand a truncation bound of 1, so with one citing id upstream
the claim predicts a one element result; the code truncates with the
raw value 0 and returns the empty list. -/
theorem pubmed_C1_counterexample :
    ¬ (getArticleCitations { pmid := "1", max_results := some 0 } none envC1 =
        jsSliceTo (parseELinkXML envC1.domParse "<linkset/>") (clampMax 0)) := by
  decide

/-- C1 (amended): the five search operations clamp max_results with
min (max 1 m) 100 into the retmax parameter, with default 20 for
search_articles, search_by_compound, search_clinical_trials and
advanced_boolean_search and default 50 for search_by_author, and the
clamp lands in the range 1 to 100 with in-range values unchanged;
get_article_citations sends no retmax at all and does not clamp: it
truncates the decoded citation list with the JavaScript slice of the
raw max_results (default 50), so a requested value of 0 yields the
empty list, a negative value drops that many elements from the end of
the list, and values at or beyond the list length impose no ceiling at
all. -/
theorem pubmed_C1_amended :
    (∀ p : SearchArticlesParams,
      (searchArticlesParamsList p).lookup "retmax" =
        some (toString (clampMax (p.max_results.getD 20)))) ∧
    (∀ (p : SearchByCompoundParams) (utcYear : Int),
      (searchByCompoundParamsList p utcYear).lookup "retmax" =
        some (toString (clampMax (p.max_results.getD 20)))) ∧
    (∀ p : SearchClinicalTrialsParams,
      (searchClinicalTrialsParamsList p).lookup "retmax" =
        some (toString (clampMax (p.max_results.getD 20)))) ∧
    (∀ p : SearchByAuthorParams,
      (searchByAuthorParamsList p).lookup "retmax" =
        some (toString (clampMax (p.max_results.getD 50)))) ∧
    (∀ p : AdvancedBooleanSearchParams,
      (advancedBooleanSearchParamsList p).lookup "retmax" =
        some (toString (clampMax (p.max_results.getD 20)))) ∧
    (∀ m : Int, 1 ≤ clampMax m ∧ clampMax m ≤ 100 ∧ (1 ≤ m → m ≤ 100 → clampMax m = m)) ∧
    (∀ p : GetArticleCitationsParams, (getArticleCitationsParamsList p).lookup "retmax" = none) ∧
    (∀ l : List String, jsSliceTo l 0 = []) ∧
    (∀ (l : List String) (n : Nat), 0 < n →
      jsSliceTo l (-(n : Int)) = l.take (l.length - n)) ∧
    (∀ (l : List String) (m : Int), (l.length : Int) ≤ m → jsSliceTo l m = l) ∧
    (∀ (p : GetArticleCitationsParams) (apiKey : Option String) (env : FetchEnv)
        (pl : Payload) (x : String),
      (fetchWithRetry elinkUrl (getArticleCitationsParamsList p) apiKey env.cacheLookup
          env.behav).trace.result = Except.ok pl →
      pl.xml? = some x → x ≠ "" →
      getArticleCitations p apiKey env =
        jsSliceTo (parseELinkXML env.domParse x) (p.max_results.getD 50)) := by
  refine ⟨fun p => rfl, fun p y => rfl, fun p => rfl, fun p => rfl, fun p => rfl, ?_,
    fun p => rfl, ?_, ?_, ?_, ?_⟩
  · intro m
    refine ⟨?_, ?_, ?_⟩
    · simp [clampMax]
    · simp [clampMax]
    · intro h1 h2; simp [clampMax]; omega
  · intro l; simp [jsSliceTo]
  · intro l n hn
    have hneg : -(n : Int) < 0 := by omega
    rw [jsSliceTo, if_pos hneg]
    congr 1
    omega
  · intro l m hm
    rw [jsSliceTo, if_neg (by omega)]
    exact List.take_of_length_le (by omega)
  · intro p apiKey env pl x hres hx hxne
    unfold getArticleCitations
    rw [hres]
    simp [jsTruthy, hx, hxne]

/-- Witness for C1 (amended): the citations operation with defaulted
max_results in the concrete one-id environment, and the slice of a
concrete list at a negative bound. -/
theorem pubmed_C1_amended_witness :
    (getArticleCitations { pmid := "1", max_results := none } none envC1 =
        jsSliceTo (parseELinkXML envC1.domParse "<linkset/>")
          (((none : Option Int)).getD 50)) ∧
      jsSliceTo ["a", "b", "c"] (-1) = ["a", "b"] := by
  obtain ⟨-, -, -, -, -, -, -, -, hneg, -, hcit⟩ := pubmed_C1_amended
  exact ⟨hcit { pmid := "1", max_results := none } none envC1
      { xml? := some "<linkset/>", text? := none } "<linkset/>" rfl rfl (by decide),
    hneg ["a", "b", "c"] 1 (by decide)⟩

/-! ## Claim C2 -/

/-- Document with two identifier elements, and an environment whose
upstream returns it however small the requested maximum was. -/
def docC2 : XElem :=
  XElem.mk "eSearchResult" [] ""
    [XElem.mk "Count" [] "2" [],
     XElem.mk "IdList" [] ""
       [XElem.mk "Id" [] "111" [], XElem.mk "Id" [] "222" []]]

/-- Environment for exercising the search operations against a payload
holding more ids than requested. -/
def envC2 : FetchEnv :=
  { cacheLookup := fun _ => none
    behav := fun _ => Except.ok
      { status := 200, statusText := "OK", contentType := some "text/xml", body := "<r/>" }
    domParse := fun _ => some docC2
    utcYear := 2025 }

/-- C2 counterexample: the decoded pmids list is not truncated by this
system.  With clamped requested maximum 1 and an upstream payload
holding two Id elements, search_articles returns both ids, violating
the claimed bound length at most 1. -/
theorem pubmed_C2_counterexample :
    ¬ ((searchArticles
          { query := "q", max_results := some 1, min_date := none, max_date := none,
            sort_by := none } none envC2).pmids.length ≤ (clampMax 1).toNat) := by
  decide

/-- C2 (amended): every search operation requests at most the clamped
maximum from upstream (its retmax parameter is the clamp of the
requested value, which lies in the range 1 to 100), but the system
does not itself truncate the decoded ids: the pmids field of every
search result is exactly the non-empty Id texts of the upstream
document, so its length is bounded by the number of Id elements the
upstream XML contains and by nothing else. -/
theorem pubmed_C2_amended :
    (∀ p : SearchArticlesParams,
      (searchArticlesParamsList p).lookup "retmax" =
          some (toString (clampMax (p.max_results.getD 20))) ∧
        1 ≤ clampMax (p.max_results.getD 20) ∧ clampMax (p.max_results.getD 20) ≤ 100) ∧
    (∀ (p : SearchByCompoundParams) (utcYear : Int),
      (searchByCompoundParamsList p utcYear).lookup "retmax" =
          some (toString (clampMax (p.max_results.getD 20))) ∧
        1 ≤ clampMax (p.max_results.getD 20) ∧ clampMax (p.max_results.getD 20) ≤ 100) ∧
    (∀ p : SearchClinicalTrialsParams,
      (searchClinicalTrialsParamsList p).lookup "retmax" =
          some (toString (clampMax (p.max_results.getD 20))) ∧
        1 ≤ clampMax (p.max_results.getD 20) ∧ clampMax (p.max_results.getD 20) ≤ 100) ∧
    (∀ p : SearchByAuthorParams,
      (searchByAuthorParamsList p).lookup "retmax" =
          some (toString (clampMax (p.max_results.getD 50))) ∧
        1 ≤ clampMax (p.max_results.getD 50) ∧ clampMax (p.max_results.getD 50) ≤ 100) ∧
    (∀ p : AdvancedBooleanSearchParams,
      (advancedBooleanSearchParamsList p).lookup "retmax" =
          some (toString (clampMax (p.max_results.getD 20))) ∧
        1 ≤ clampMax (p.max_results.getD 20) ∧ clampMax (p.max_results.getD 20) ≤ 100) ∧
    (∀ (domParse : String → Option XElem) (s : String) (d : XElem), domParse s = some d →
      (parseESearchXML domParse s).pmids = pushTexts (docAll d "Id") ∧
      (parseESearchXML domParse s).pmids.length ≤ (docAll d "Id").length) ∧
    (∀ (p : SearchArticlesParams) (apiKey : Option String) (env : FetchEnv)
        (pl : Payload) (x : String) (d : XElem),
      (fetchWithRetry esearchUrl (searchArticlesParamsList p) apiKey env.cacheLookup
          env.behav).trace.result = Except.ok pl →
      pl.xml? = some x → x ≠ "" → env.domParse x = some d →
      (searchArticles p apiKey env).pmids = pushTexts (docAll d "Id")) ∧
    (∀ (p : SearchByCompoundParams) (apiKey : Option String) (env : FetchEnv)
        (pl : Payload) (x : String) (d : XElem),
      (fetchWithRetry esearchUrl (searchByCompoundParamsList p env.utcYear) apiKey
          env.cacheLookup env.behav).trace.result = Except.ok pl →
      pl.xml? = some x → x ≠ "" → env.domParse x = some d →
      (searchByCompound p apiKey env).pmids = pushTexts (docAll d "Id")) ∧
    (∀ (p : SearchClinicalTrialsParams) (apiKey : Option String) (env : FetchEnv)
        (pl : Payload) (x : String) (d : XElem),
      (fetchWithRetry esearchUrl (searchClinicalTrialsParamsList p) apiKey env.cacheLookup
          env.behav).trace.result = Except.ok pl →
      pl.xml? = some x → x ≠ "" → env.domParse x = some d →
      (searchClinicalTrials p apiKey env).pmids = pushTexts (docAll d "Id")) ∧
    (∀ (p : SearchByAuthorParams) (apiKey : Option String) (env : FetchEnv)
        (pl : Payload) (x : String) (d : XElem),
      (fetchWithRetry esearchUrl (searchByAuthorParamsList p) apiKey env.cacheLookup
          env.behav).trace.result = Except.ok pl →
      pl.xml? = some x → x ≠ "" → env.domParse x = some d →
      (searchByAuthor p apiKey env).pmids = pushTexts (docAll d "Id")) ∧
    (∀ (p : AdvancedBooleanSearchParams) (apiKey : Option String) (env : FetchEnv)
        (pl : Payload) (x : String) (d : XElem),
      (fetchWithRetry esearchUrl (advancedBooleanSearchParamsList p) apiKey env.cacheLookup
          env.behav).trace.result = Except.ok pl →
      pl.xml? = some x → x ≠ "" → env.domParse x = some d →
      (advancedBooleanSearch p apiKey env).pmids = pushTexts (docAll d "Id")) := by
  have hclamp : ∀ m : Int, 1 ≤ clampMax m ∧ clampMax m ≤ 100 := by
    intro m
    constructor <;> simp [clampMax]
  refine ⟨?_, ?_, ?_, ?_, ?_, ?_, ?_, ?_, ?_, ?_, ?_⟩
  · exact fun p => ⟨rfl, (hclamp _).1, (hclamp _).2⟩
  · exact fun p y => ⟨rfl, (hclamp _).1, (hclamp _).2⟩
  · exact fun p => ⟨rfl, (hclamp _).1, (hclamp _).2⟩
  · exact fun p => ⟨rfl, (hclamp _).1, (hclamp _).2⟩
  · exact fun p => ⟨rfl, (hclamp _).1, (hclamp _).2⟩
  · intro domParse s d h
    constructor
    · simp [parseESearchXML, h]
    · have hpm : (parseESearchXML domParse s).pmids = pushTexts (docAll d "Id") := by
        simp [parseESearchXML, h]
      rw [hpm]
      exact pushTexts_length_le (docAll d "Id")
  · intro p apiKey env pl x d hres hx hxne hd
    unfold searchArticles
    rw [hres]
    simp [jsTruthy, hx, hxne, parseESearchXML, hd]
  · intro p apiKey env pl x d hres hx hxne hd
    unfold searchByCompound
    rw [hres]
    simp [jsTruthy, hx, hxne, parseESearchXML, hd]
  · intro p apiKey env pl x d hres hx hxne hd
    unfold searchClinicalTrials
    rw [hres]
    simp [jsTruthy, hx, hxne, parseESearchXML, hd]
  · intro p apiKey env pl x d hres hx hxne hd
    unfold searchByAuthor
    rw [hres]
    simp [jsTruthy, hx, hxne, parseESearchXML, hd]
  · intro p apiKey env pl x d hres hx hxne hd
    unfold advancedBooleanSearch
    rw [hres]
    simp [jsTruthy, hx, hxne, parseESearchXML, hd]

/-- Witness for C2 (amended): the end-to-end pmids equation for two of
the operations in the concrete two-id environment. -/
theorem pubmed_C2_amended_witness :
    ((searchArticles
        { query := "q", max_results := some 1, min_date := none, max_date := none,
          sort_by := none } none envC2).pmids = pushTexts (docAll docC2 "Id")) ∧
      ((advancedBooleanSearch { query := "q", max_results := some 1, sort_by := none }
        none envC2).pmids = pushTexts (docAll docC2 "Id")) := by
  obtain ⟨-, -, -, -, -, -, hA, -, -, -, hAdv⟩ := pubmed_C2_amended
  exact ⟨hA
      { query := "q", max_results := some 1, min_date := none, max_date := none,
        sort_by := none } none envC2 { xml? := some "<r/>", text? := none } "<r/>" docC2
      rfl rfl (by decide) rfl,
    hAdv { query := "q", max_results := some 1, sort_by := none } none envC2
      { xml? := some "<r/>", text? := none } "<r/>" docC2 rfl rfl (by decide) rfl⟩
